import Mathlib

/-!
Verification of the selection, scoring and window-lifecycle core of the
MotionCombatSystem plugin (MCS_DefenseChooser, MCS_CombatCoreComponent,
MCS_CombatDefenseComponent).

Modelling conventions.
Engine floats are modelled as exact rationals; the `-FLT_MAX` sentinel used by
the choosers is a distinguished constructor of `MCSFloat` (every genuine score
is a small rational, strictly above `-FLT_MAX`).  Actor references carry their
null/pending-kill status and the actor's gameplay tags; the engine's spatial
queries (`FVector::Dist`, and the dot product of a forward vector with a
safe-normalized direction) are external collaborators, so their scalar outputs
enter the model as the fields of `GeomCtx`.  The engine RNG draw
`FMath::FRandRange(-5,5)` performed by the k-th scoring call of a selection is
modelled as the k-th element of an injected stream `rands : Nat → ℚ`.
-/

namespace MCS

/-- Enum `EMCS_DefenseIntent` (MCS_DefenseEntry.h): Defense or Parry. -/
inductive EMCS_DefenseIntent
  | Defense
  | Parry
deriving DecidableEq

/-- Enum `EMCS_AttackDirection`.  Modelled from the spec: the header
`Enums/EMCS_AttackDirections.h` is not among the sources; the spec's data model
and the call sites (`GetAttackDirection`, `ScoreFacing`) use the values
Forward / Backward / Left / Right / Omni. -/
inductive EMCS_AttackDirection
  | Forward
  | Backward
  | Left
  | Right
  | Omni
deriving DecidableEq

/-- An `AActor*` reference as the combat code sees it: the pointer may be null
(`notNull = false`), the pointed-to actor may be pending kill (`alive =
false`), and the actor owns a set of gameplay tags (supplied by the engine;
the combat core itself never mutates them). -/
structure ActorRef where
  notNull : Bool
  alive : Bool
  tags : List String
deriving DecidableEq

/-- Engine `IsValid(AActor*)`: non-null and not pending kill. -/
def IsValidActor (a : ActorRef) : Bool := a.notNull && a.alive

/-- Scalar outputs of the engine's spatial queries for one (defender, attacker)
pair: `dist` is `FVector::Dist` of the two actor locations and `facingDot` is
the dot product of the defender's forward vector with the safe-normalized
vector from defender to attacker.  The square roots live in the engine (an
external collaborator per the spec); the combat code consumes only these two
scalars. -/
structure GeomCtx where
  dist : ℚ
  facingDot : ℚ

/-- Struct `FMCS_DefenseEntry` (MCS_DefenseEntry.h), with the fields the core
reads; `FName`s are strings, `Range` is the pair (RangeX, RangeY) of its
`FVector2D`. -/
structure FMCS_DefenseEntry where
  DefenseName : String := ""
  Category : String := ""
  DefenseIntent : EMCS_DefenseIntent := .Defense
  SelectionWeight : ℚ := 1
  ValidDirection : EMCS_AttackDirection := .Omni
  RangeX : ℚ := 0
  RangeY : ℚ := 1000
  RequiredTags : List String := []
  ExcludedTags : List String := []
deriving DecidableEq

/-- A float as the choosers use it: either the `-FLT_MAX` sentinel or an
ordinary finite value. -/
inductive MCSFloat
  | negFltMax
  | val (q : ℚ)
deriving DecidableEq

/-- The C++ `>` comparison on those floats (`-FLT_MAX > -FLT_MAX` is false and
every genuine score is strictly above `-FLT_MAX`). -/
def MCSFloat.gt : MCSFloat → MCSFloat → Bool
  | .negFltMax, _ => false
  | .val _, .negFltMax => true
  | .val a, .val b => decide (b < a)

/-- `FMath::Clamp(X, Min, Max)`: `(X < Min) ? Min : (X < Max) ? X : Max`. -/
def fclamp (x lo hi : ℚ) : ℚ := if x < lo then lo else if x < hi then x else hi

/-- `UMCS_DefenseChooser::ScoreDistance` (MCS_DefenseChooser.cpp lines
146-169): tent-shaped distance sub-score from the entry's range, `0` for an
invalid actor or a degenerate range. -/
def ScoreDistance (Entry : FMCS_DefenseEntry) (Defender Attacker : ActorRef)
    (g : GeomCtx) : ℚ :=
  if !IsValidActor Defender || !IsValidActor Attacker then 0
  else
    let Dist := g.dist
    let MidRange := (Entry.RangeX + Entry.RangeY) * (1/2)
    let RangeExtent := (Entry.RangeY - Entry.RangeX) * (1/2)
    if RangeExtent ≤ 1 then 0
    else
      let Normalized := fclamp (1 - |Dist - MidRange| / RangeExtent) 0 1
      Normalized * 50 - 25

/-- `UMCS_DefenseChooser::ScoreFacing` (MCS_DefenseChooser.cpp lines 182-195):
+10 when the entry is Forward-only and the defender faces the attacker within
the `> 0.25` dot cone, otherwise 0. -/
def ScoreFacing (Entry : FMCS_DefenseEntry) (Defender Attacker : ActorRef)
    (g : GeomCtx) : ℚ :=
  if !IsValidActor Defender || !IsValidActor Attacker then 0
  else if Entry.ValidDirection = .Forward ∧ g.facingDot > 1/4 then 10
  else 0

/-- `UMCS_DefenseChooser::ScoreDefense_Implementation` (MCS_DefenseChooser.cpp
lines 106-133): `-FLT_MAX` for an invalid actor, otherwise the additive total
of intent match (+50 / -25), distance, facing, and the random draw `Rand` of
this call. -/
def ScoreDefense_Implementation (Entry : FMCS_DefenseEntry)
    (Defender Attacker : ActorRef) (Intent : EMCS_DefenseIntent) (g : GeomCtx)
    (Rand : ℚ) : MCSFloat :=
  if !IsValidActor Defender || !IsValidActor Attacker then .negFltMax
  else
    .val ((if Entry.DefenseIntent = Intent then (50 : ℚ) else -25)
      + ScoreDistance Entry Defender Attacker g
      + ScoreFacing Entry Defender Attacker g
      + Rand)

/-- `UMCS_DefenseChooser::CanAttemptDefense_Implementation`
(MCS_DefenseChooser.cpp lines 209-214): the default eligibility check always
permits the entry. -/
def CanAttemptDefense_Implementation (Entry : FMCS_DefenseEntry)
    (Defender Attacker : ActorRef) : Bool :=
  true

/-- The selection loop shared by the choosers: walk the candidate list in
store order, skip candidates failing `can`, score the k-th non-skipped
candidate with `score k`, and keep the first candidate whose score is
strictly greater (`MCSFloat.gt`) than the running best.  `bestScore` starts
at `-FLT_MAX` and `best` at `none` (the `bFound = false` out-state). -/
def chooseBestLoop {α : Type} (can : α → Bool) (score : Nat → α → MCSFloat) :
    List α → Nat → MCSFloat → Option α → Option α
  | [], _, _, best => best
  | e :: rest, k, bestScore, best =>
    if can e then
      let s := score k e
      if s.gt bestScore then chooseBestLoop can score rest (k + 1) s (some e)
      else chooseBestLoop can score rest (k + 1) bestScore best
    else chooseBestLoop can score rest k bestScore best

/-- `UMCS_DefenseChooser::ChooseDefense` (MCS_DefenseChooser.cpp lines 48-87).
`CanAttemptDefense` and `ScoreDefense` are the chooser's virtual methods (the
defaults above, or designer overrides); the `Nat` argument of `ScoreDefense`
is the position in the RNG stream consumed by that scoring call.  Returns
`none` for `bFound = false` (the out-parameter is then left untouched). -/
def ChooseDefense (DefenseEntries : List FMCS_DefenseEntry)
    (CanAttemptDefense : FMCS_DefenseEntry → ActorRef → ActorRef → Bool)
    (ScoreDefense :
      Nat → FMCS_DefenseEntry → ActorRef → ActorRef → EMCS_DefenseIntent → MCSFloat)
    (Defender Attacker : ActorRef) (Intent : EMCS_DefenseIntent) :
    Option FMCS_DefenseEntry :=
  if !Defender.notNull || DefenseEntries.isEmpty then none
  else
    chooseBestLoop (fun e => CanAttemptDefense e Defender Attacker)
      (fun k e => ScoreDefense k e Defender Attacker Intent)
      DefenseEntries 0 .negFltMax none

/-- The default scoring virtual bound to an RNG stream and a geometry
context. -/
def ScoreDefenseDefault (rands : Nat → ℚ) (g : GeomCtx) :
    Nat → FMCS_DefenseEntry → ActorRef → ActorRef → EMCS_DefenseIntent → MCSFloat :=
  fun k e d a i => ScoreDefense_Implementation e d a i g (rands k)

/-- `ChooseDefense` with both virtuals at their default implementations. -/
def ChooseDefenseDefault (DefenseEntries : List FMCS_DefenseEntry)
    (Defender Attacker : ActorRef) (Intent : EMCS_DefenseIntent) (g : GeomCtx)
    (rands : Nat → ℚ) : Option FMCS_DefenseEntry :=
  ChooseDefense DefenseEntries CanAttemptDefense_Implementation
    (ScoreDefenseDefault rands g) Defender Attacker Intent

/-- Tag-based eligibility as the spec words it (spec §4.1, "Tag-based variant
(used for defense candidates)"): eligible iff every required tag is present on
the defender and no excluded tag is present.  This is the spec-side definition
that claim C4 compares against the source's eligibility check. -/
def tagEligibleSpec (Entry : FMCS_DefenseEntry) (Defender : ActorRef) : Bool :=
  Entry.RequiredTags.all (fun t => Defender.tags.contains t) &&
    Entry.ExcludedTags.all (fun t => !Defender.tags.contains t)

/-! Helper lemmas about `fclamp`. -/

lemma fclamp_of_le_lo {x lo hi : ℚ} (hlo : x ≤ lo) (hlohi : lo ≤ hi) :
    fclamp x lo hi = lo := by
  unfold fclamp
  split_ifs <;> linarith

lemma fclamp_mono {x y lo hi : ℚ} (hlohi : lo ≤ hi) (hxy : x ≤ y) :
    fclamp x lo hi ≤ fclamp y lo hi := by
  unfold fclamp
  split_ifs <;> linarith

/-- Distance sub-score expressed directly as a function of the actual distance
`d`, for a range with midpoint `m` and halfwidth `h` (the non-degenerate
branch of `ScoreDistance`). -/
lemma scoreDistance_eq (Entry : FMCS_DefenseEntry) (Defender Attacker : ActorRef)
    (g : GeomCtx) (hd : IsValidActor Defender = true)
    (ha : IsValidActor Attacker = true)
    (hw : 1 < (Entry.RangeY - Entry.RangeX) / 2) :
    ScoreDistance Entry Defender Attacker g =
      fclamp (1 - |g.dist - (Entry.RangeX + Entry.RangeY) / 2|
          / ((Entry.RangeY - Entry.RangeX) / 2)) 0 1 * 50 - 25 := by
  unfold ScoreDistance
  rw [hd, ha]
  simp only [Bool.not_true, Bool.false_or, Bool.or_self, if_false, Bool.false_eq_true]
  have h2 : (Entry.RangeY - Entry.RangeX) * (1/2) = (Entry.RangeY - Entry.RangeX) / 2 := by
    ring
  have hm : (Entry.RangeX + Entry.RangeY) * (1/2) = (Entry.RangeX + Entry.RangeY) / 2 := by
    ring
  rw [h2, hm, if_neg (not_le.mpr hw)]

/-- C2: for every defense entry and every pair of valid actors, the distance
sub-score is 0 whenever the halfwidth (RangeY - RangeX)/2 is at most 1;
otherwise it equals clamp(1 - |dist - midpoint| / halfwidth, 0, 1) * 50 - 25,
is exactly +25 when the distance equals the midpoint, exactly -25 once
|dist - midpoint| reaches the halfwidth, and is monotonically non-increasing
in |dist - midpoint|. -/
theorem scoreDistance_tent_profile (Entry : FMCS_DefenseEntry)
    (Defender Attacker : ActorRef) (g : GeomCtx)
    (hd : IsValidActor Defender = true) (ha : IsValidActor Attacker = true) :
    ((Entry.RangeY - Entry.RangeX) / 2 ≤ 1 →
        ScoreDistance Entry Defender Attacker g = 0) ∧
    (1 < (Entry.RangeY - Entry.RangeX) / 2 →
        ScoreDistance Entry Defender Attacker g =
          fclamp (1 - |g.dist - (Entry.RangeX + Entry.RangeY) / 2|
              / ((Entry.RangeY - Entry.RangeX) / 2)) 0 1 * 50 - 25) ∧
    (1 < (Entry.RangeY - Entry.RangeX) / 2 →
        g.dist = (Entry.RangeX + Entry.RangeY) / 2 →
        ScoreDistance Entry Defender Attacker g = 25) ∧
    (1 < (Entry.RangeY - Entry.RangeX) / 2 →
        (Entry.RangeY - Entry.RangeX) / 2 ≤ |g.dist - (Entry.RangeX + Entry.RangeY) / 2| →
        ScoreDistance Entry Defender Attacker g = -25) ∧
    (∀ g₁ g₂ : GeomCtx,
        |g₁.dist - (Entry.RangeX + Entry.RangeY) / 2| ≤
          |g₂.dist - (Entry.RangeX + Entry.RangeY) / 2| →
        ScoreDistance Entry Defender Attacker g₂ ≤
          ScoreDistance Entry Defender Attacker g₁) := by
  set m : ℚ := (Entry.RangeX + Entry.RangeY) / 2 with hm
  set h : ℚ := (Entry.RangeY - Entry.RangeX) / 2 with hh
  have hdeg : ∀ g' : GeomCtx, h ≤ 1 → ScoreDistance Entry Defender Attacker g' = 0 := by
    intro g' hle
    unfold ScoreDistance
    rw [hd, ha]
    simp only [Bool.not_true, Bool.false_or, Bool.or_self, if_false, Bool.false_eq_true]
    have h2 : (Entry.RangeY - Entry.RangeX) * (1/2) = h := by rw [hh]; ring
    rw [h2, if_pos hle]
  refine ⟨hdeg g, ?_, ?_, ?_, ?_⟩
  · intro hw
    exact scoreDistance_eq Entry Defender Attacker g hd ha hw
  · intro hw hmid
    rw [scoreDistance_eq Entry Defender Attacker g hd ha hw, ← hm, ← hh, hmid,
      sub_self, abs_zero, zero_div, sub_zero]
    have h1 : fclamp 1 0 1 = 1 := by
      unfold fclamp
      rw [if_neg (by norm_num : ¬ (1:ℚ) < 0), if_neg (lt_irrefl 1)]
    rw [h1]; norm_num
  · intro hw hedge
    rw [scoreDistance_eq Entry Defender Attacker g hd ha hw, ← hm, ← hh]
    have hpos : (0:ℚ) < h := lt_trans one_pos hw
    have hquot : 1 ≤ |g.dist - m| / h := (le_div_iff hpos).mpr (by linarith)
    have hle : 1 - |g.dist - m| / h ≤ 0 := by linarith
    rw [fclamp_of_le_lo hle (by norm_num)]
    norm_num
  · intro g₁ g₂ hcloser
    rcases le_or_lt h 1 with hle | hw
    · rw [hdeg g₁ hle, hdeg g₂ hle]
    · rw [scoreDistance_eq Entry Defender Attacker g₁ hd ha hw,
        scoreDistance_eq Entry Defender Attacker g₂ hd ha hw, ← hm, ← hh]
      have hpos : (0:ℚ) < h := lt_trans one_pos hw
      have hdiv : |g₁.dist - m| / h ≤ |g₂.dist - m| / h :=
        (div_le_div_right hpos).mpr hcloser
      have harg : 1 - |g₂.dist - m| / h ≤ 1 - |g₁.dist - m| / h := by linarith
      have := fclamp_mono (by norm_num : (0:ℚ) ≤ 1) harg
      nlinarith [this]

/-- Witness for C2 at a concrete input: entry with range [100, 300]
(halfwidth 100), valid actors, actual distance 200 = midpoint, sub-score
+25. -/
theorem scoreDistance_tent_profile_witness :
    IsValidActor ⟨true, true, []⟩ = true ∧
      (1:ℚ) < (((300:ℚ) - 100) / 2) ∧
      ScoreDistance { DefenseName := "Block", RangeX := 100, RangeY := 300 }
        ⟨true, true, []⟩ ⟨true, true, []⟩ ⟨200, 1⟩ = 25 :=
  ⟨rfl, by norm_num,
    (scoreDistance_tent_profile
        { DefenseName := "Block", RangeX := 100, RangeY := 300 }
        ⟨true, true, []⟩ ⟨true, true, []⟩ ⟨200, 1⟩ rfl rfl).2.2.1
      (by norm_num) (by norm_num)⟩

/-- C4 counterexample: an entry requiring the tag MCS.State.Grounded on a
defender carrying no tags.  The source's eligibility check
(`CanAttemptDefense_Implementation`) still returns true, so it does not agree
with the spec's tag-based rule (`tagEligibleSpec`). -/
theorem canAttemptDefense_ignores_tags_cex :
    CanAttemptDefense_Implementation
        { DefenseName := "Block", RequiredTags := ["MCS.State.Grounded"] }
        ⟨true, true, []⟩ ⟨true, true, []⟩ = true ∧
      tagEligibleSpec
        { DefenseName := "Block", RequiredTags := ["MCS.State.Grounded"] }
        ⟨true, true, []⟩ = false ∧
      ¬ (CanAttemptDefense_Implementation
            { DefenseName := "Block", RequiredTags := ["MCS.State.Grounded"] }
            ⟨true, true, []⟩ ⟨true, true, []⟩ =
          tagEligibleSpec
            { DefenseName := "Block", RequiredTags := ["MCS.State.Grounded"] }
            ⟨true, true, []⟩) := by
  refine ⟨rfl, by decide, by decide⟩

/-- C4 amended: the eligibility check the source actually uses for defense
candidates is the permissive default; it returns true for every entry and
every pair of actors, and in particular never consults the entry's
RequiredTags or ExcludedTags. -/
theorem canAttemptDefense_default_always_true
    (Entry : FMCS_DefenseEntry) (Defender Attacker : ActorRef) :
    CanAttemptDefense_Implementation Entry Defender Attacker = true := rfl

/-! Helper lemmas about the selection loop. -/

lemma MCSFloat.gt_trans {a b c : MCSFloat} (hab : a.gt b = true)
    (hbc : b.gt c = true) : a.gt c = true := by
  cases a <;> cases b <;> cases c <;> simp_all [MCSFloat.gt] <;> linarith

lemma MCSFloat.gt_of_gt_of_not_gt {a b c : MCSFloat} (hab : a.gt b = true)
    (hcb : c.gt b = false) : a.gt c = true := by
  cases a <;> cases b <;> cases c <;> simp_all [MCSFloat.gt] <;> linarith

/-- Characterization of the loop when the per-call score does not depend on
the RNG position (jitter mocked to a constant): a `some c` result either is
the incoming `best` with no candidate ever beating the incoming `bestScore`,
or `c` is the first candidate attaining the maximum: it beats `bestScore`,
strictly beats every earlier eligible candidate, and no later eligible
candidate strictly beats it. -/
lemma chooseBestLoop_some_split {α : Type} (can : α → Bool) (f : α → MCSFloat) :
    ∀ (l : List α) (k : Nat) (b : MCSFloat) (best : Option α) (c : α),
      chooseBestLoop can (fun _ e => f e) l k b best = some c →
      (best = some c ∧ ∀ e ∈ l, can e = true → (f e).gt b = false) ∨
      (∃ l₁ l₂, l = l₁ ++ c :: l₂ ∧ can c = true ∧ (f c).gt b = true ∧
        (∀ e ∈ l₁, can e = true → (f c).gt (f e) = true) ∧
        (∀ e ∈ l₂, can e = true → (f e).gt (f c) = false)) := by
  intro l
  induction l with
  | nil =>
    intro k b best c hres
    left
    exact ⟨hres, by intro e he; exact absurd he (List.not_mem_nil e)⟩
  | cons e rest ih =>
    intro k b best c hres
    by_cases hcan : can e = true
    · by_cases hgt : (f e).gt b = true
      · rw [chooseBestLoop, if_pos hcan] at hres
        simp only [hgt, if_pos] at hres
        rcases ih (k + 1) (f e) (some e) c hres with ⟨heq, hall⟩ | ⟨l₁, l₂, hsplit, hc, hcb, h₁, h₂⟩
        · right
          refine ⟨[], rest, ?_, ?_, ?_, ?_, ?_⟩
          · rw [Option.some_inj] at heq
            rw [heq]
            rfl
          · rw [Option.some_inj] at heq
            rw [← heq]; exact hcan
          · rw [Option.some_inj] at heq
            rw [← heq]; exact hgt
          · intro x hx; exact absurd hx (List.not_mem_nil x)
          · intro x hx hcx
            rw [Option.some_inj] at heq
            rw [← heq]
            exact hall x hx hcx
        · right
          refine ⟨e :: l₁, l₂, by rw [hsplit, List.cons_append], hc, ?_, ?_, h₂⟩
          · exact MCSFloat.gt_trans hcb hgt
          · intro x hx hcx
            rcases List.mem_cons.mp hx with hxe | hxl
            · rw [hxe]; exact hcb
            · exact h₁ x hxl hcx
      · rw [chooseBestLoop, if_pos hcan] at hres
        simp only [hgt, if_neg, Bool.false_eq_true, if_false] at hres
        rcases ih (k + 1) b best c hres with ⟨heq, hall⟩ | ⟨l₁, l₂, hsplit, hc, hcb, h₁, h₂⟩
        · left
          refine ⟨heq, ?_⟩
          intro x hx hcx
          rcases List.mem_cons.mp hx with hxe | hxl
          · subst hxe
            simpa using hgt
          · exact hall x hxl hcx
        · right
          refine ⟨e :: l₁, l₂, by rw [hsplit, List.cons_append], hc, hcb, ?_, h₂⟩
          intro x hx hcx
          rcases List.mem_cons.mp hx with hxe | hxl
          · subst hxe
            exact MCSFloat.gt_of_gt_of_not_gt hcb (by simpa using hgt)
          · exact h₁ x hxl hcx
    · rw [chooseBestLoop, if_neg hcan] at hres
      rcases ih k b best c hres with ⟨heq, hall⟩ | ⟨l₁, l₂, hsplit, hc, hcb, h₁, h₂⟩
      · left
        refine ⟨heq, ?_⟩
        intro x hx hcx
        rcases List.mem_cons.mp hx with hxe | hxl
        · rw [hxe] at hcx; exact absurd hcx hcan
        · exact hall x hxl hcx
      · right
        refine ⟨e :: l₁, l₂, by rw [hsplit, List.cons_append], hc, hcb, ?_, h₂⟩
        intro x hx hcx
        rcases List.mem_cons.mp hx with hxe | hxl
        · rw [hxe] at hcx; exact absurd hcx hcan
        · exact h₁ x hxl hcx

/-- A `some c` result of the loop is the incoming `best`, or `c` passed the
eligibility check and some scoring call on `c` strictly beat a running best. -/
lemma chooseBestLoop_some_scored {α : Type} (can : α → Bool)
    (score : Nat → α → MCSFloat) :
    ∀ (l : List α) (k : Nat) (b : MCSFloat) (best : Option α) (c : α),
      chooseBestLoop can score l k b best = some c →
      best = some c ∨ (can c = true ∧ ∃ kc bc, (score kc c).gt bc = true) := by
  intro l
  induction l with
  | nil =>
    intro k b best c hres
    exact Or.inl hres
  | cons e rest ih =>
    intro k b best c hres
    by_cases hcan : can e = true
    · by_cases hgt : (score k e).gt b = true
      · rw [chooseBestLoop, if_pos hcan] at hres
        simp only [hgt, if_pos] at hres
        rcases ih (k + 1) (score k e) (some e) c hres with heq | hsc
        · rw [Option.some_inj] at heq
          subst heq
          exact Or.inr ⟨hcan, k, b, hgt⟩
        · exact Or.inr hsc
      · rw [chooseBestLoop, if_pos hcan] at hres
        simp only [hgt, if_neg, Bool.false_eq_true, if_false] at hres
        exact ih (k + 1) b best c hres
    · rw [chooseBestLoop, if_neg hcan] at hres
      exact ih k b best c hres

/-- When every scoring call yields the `-FLT_MAX` sentinel, the loop never
updates its running best. -/
lemma chooseBestLoop_all_bot {α : Type} (can : α → Bool)
    (score : Nat → α → MCSFloat)
    (hbot : ∀ k e, score k e = .negFltMax) :
    ∀ (l : List α) (k : Nat) (best : Option α),
      chooseBestLoop can score l k .negFltMax best = best := by
  intro l
  induction l with
  | nil => intro k best; rfl
  | cons e rest ih =>
    intro k best
    by_cases hcan : can e = true
    · rw [chooseBestLoop, if_pos hcan]
      simp only [hbot k e, MCSFloat.gt, Bool.false_eq_true, if_false]
      exact ih (k + 1) best
    · rw [chooseBestLoop, if_neg hcan]
      exact ih k best

/-- When no candidate passes the eligibility check, the loop returns its
incoming `best` unchanged. -/
lemma chooseBestLoop_none_eligible {α : Type} (can : α → Bool)
    (score : Nat → α → MCSFloat) :
    ∀ (l : List α) (k : Nat) (b : MCSFloat) (best : Option α),
      (∀ e ∈ l, can e = false) →
      chooseBestLoop can score l k b best = best := by
  intro l
  induction l with
  | nil => intro k b best _; rfl
  | cons e rest ih =>
    intro k b best hall
    rw [chooseBestLoop,
      if_neg (by rw [hall e (List.mem_cons_self e rest)]; exact Bool.false_ne_true)]
    exact ih k b best fun x hx => hall x (List.mem_cons_of_mem e hx)

/-- C1: with the random jitter mocked to a constant (the per-entry score `f`
does not depend on the RNG position), `ChooseDefense` walks the store in
order, skips candidates failing the eligibility check, and returns the first
candidate attaining the maximum: the chosen candidate is eligible, its score
strictly beats (`>` comparison) every earlier eligible candidate's score, and
no later eligible candidate's score strictly beats it; in particular on two
eligible candidates with equal total scores the earlier-indexed candidate is
the one returned (strict `>`, not `>=`). -/
theorem chooseDefense_store_order_first_max
    (entries : List FMCS_DefenseEntry) (hne : entries ≠ [])
    (can : FMCS_DefenseEntry → ActorRef → ActorRef → Bool)
    (f : FMCS_DefenseEntry → MCSFloat)
    (Defender Attacker : ActorRef) (Intent : EMCS_DefenseIntent)
    (hD : Defender.notNull = true) :
    (∀ c, ChooseDefense entries can (fun _ e _ _ _ => f e) Defender Attacker Intent
          = some c →
      ∃ l₁ l₂, entries = l₁ ++ c :: l₂ ∧ can c Defender Attacker = true ∧
        (∀ e ∈ l₁, can e Defender Attacker = true → (f c).gt (f e) = true) ∧
        (∀ e ∈ l₂, can e Defender Attacker = true → (f e).gt (f c) = false)) ∧
    (∀ e₁ e₂ q, can e₁ Defender Attacker = true → can e₂ Defender Attacker = true →
      f e₁ = .val q → f e₂ = .val q →
      ChooseDefense [e₁, e₂] can (fun _ e _ _ _ => f e) Defender Attacker Intent
        = some e₁) := by
  constructor
  · intro c hres
    unfold ChooseDefense at hres
    have hie : entries.isEmpty = false := by
      cases entries with
      | nil => exact absurd rfl hne
      | cons a l => rfl
    rw [hD, hie] at hres
    simp only [Bool.not_true, Bool.or_false, Bool.false_eq_true, if_false] at hres
    rcases chooseBestLoop_some_split (fun e => can e Defender Attacker) f entries 0
        .negFltMax none c hres with ⟨heq, _⟩ | ⟨l₁, l₂, hsplit, hc, _, h₁, h₂⟩
    · exact absurd heq (by simp)
    · exact ⟨l₁, l₂, hsplit, hc, h₁, h₂⟩
  · intro e₁ e₂ q hc₁ hc₂ hq₁ hq₂
    unfold ChooseDefense
    rw [hD]
    simp only [Bool.not_true, Bool.false_or, List.isEmpty_cons, Bool.false_eq_true,
      if_false]
    unfold chooseBestLoop
    rw [if_pos hc₁]
    simp only [hq₁, MCSFloat.gt, if_pos]
    unfold chooseBestLoop
    rw [if_pos hc₂]
    simp only [hq₂, MCSFloat.gt, lt_self_iff_false, decide_False, Bool.false_eq_true,
      if_false]
    rfl

/-- Witness for C1: two eligible entries with identical constant score 1; the
chooser returns the first. -/
theorem chooseDefense_store_order_first_max_witness :
    ([{ DefenseName := "Roll" }, { DefenseName := "Block" }]
        ≠ ([] : List FMCS_DefenseEntry)) ∧
      (ActorRef.notNull ⟨true, true, []⟩ = true) ∧
      ChooseDefense [{ DefenseName := "Roll" }, { DefenseName := "Block" }]
        (fun _ _ _ => true) (fun _ e _ _ _ => (fun _ => MCSFloat.val 1) e)
        ⟨true, true, []⟩ ⟨true, true, []⟩ .Defense = some { DefenseName := "Roll" } :=
  ⟨by simp, rfl,
    (chooseDefense_store_order_first_max
        [{ DefenseName := "Roll" }, { DefenseName := "Block" }] (by simp)
        (fun _ _ _ => true) (fun _ => MCSFloat.val 1)
        ⟨true, true, []⟩ ⟨true, true, []⟩ .Defense rfl).2
      { DefenseName := "Roll" } { DefenseName := "Block" } 1 rfl rfl rfl rfl⟩

/-- C7: with either actor reference null or invalid, the default scoring
returns the `-FLT_MAX` sentinel (totally, with no exception path), the
default-configured chooser reports found = false, and in general a chosen
candidate always passed eligibility and had a scoring call strictly beat a
running best, so a candidate carrying the sentinel score is never the chosen
one. -/
theorem invalid_actor_floor_never_selected
    (entries : List FMCS_DefenseEntry) (Defender Attacker : ActorRef)
    (Intent : EMCS_DefenseIntent) (g : GeomCtx) (rands : Nat → ℚ)
    (h : IsValidActor Defender = false ∨ IsValidActor Attacker = false) :
    (∀ e r, ScoreDefense_Implementation e Defender Attacker Intent g r
        = .negFltMax) ∧
    ChooseDefenseDefault entries Defender Attacker Intent g rands = none ∧
    (∀ (l : List FMCS_DefenseEntry)
        (can : FMCS_DefenseEntry → ActorRef → ActorRef → Bool)
        (score :
          Nat → FMCS_DefenseEntry → ActorRef → ActorRef → EMCS_DefenseIntent → MCSFloat)
        (D A : ActorRef) (I : EMCS_DefenseIntent) (c : FMCS_DefenseEntry),
      ChooseDefense l can score D A I = some c →
      can c D A = true ∧
        ∃ kc bc, (score kc c D A I).gt bc = true ∧
          score kc c D A I ≠ .negFltMax) := by
  have hbot : ∀ e r, ScoreDefense_Implementation e Defender Attacker Intent g r
      = .negFltMax := by
    intro e r
    unfold ScoreDefense_Implementation
    rcases h with h' | h' <;> rw [h'] <;> simp
  refine ⟨hbot, ?_, ?_⟩
  · unfold ChooseDefenseDefault ChooseDefense
    by_cases hn : Defender.notNull = true
    · rw [hn]
      by_cases hie : entries.isEmpty = true
      · rw [hie]
        simp
      · rw [Bool.not_eq_true] at hie
        rw [hie]
        simp only [Bool.not_true, Bool.or_false, Bool.false_eq_true, if_false]
        exact chooseBestLoop_all_bot _ _
          (fun k e => hbot e (rands k)) entries 0 none
    · rw [Bool.not_eq_true] at hn
      rw [hn]
      simp
  · intro l can score D A I c hres
    unfold ChooseDefense at hres
    by_cases hcond : (!D.notNull || l.isEmpty) = true
    · rw [if_pos hcond] at hres
      exact absurd hres (by simp)
    · rw [if_neg hcond] at hres
      rcases chooseBestLoop_some_scored (fun e => can e D A)
          (fun k e => score k e D A I) l 0 .negFltMax none c hres with heq | hsc
      · exact absurd heq (by simp)
      · obtain ⟨hcan, kc, bc, hgt⟩ := hsc
        refine ⟨hcan, kc, bc, hgt, ?_⟩
        intro hsent
        rw [hsent] at hgt
        exact absurd hgt (by simp [MCSFloat.gt])

/-- Witness for C7: a pending-kill defender; the default chooser returns
found = false on a one-entry store. -/
theorem invalid_actor_floor_never_selected_witness :
    IsValidActor ⟨true, false, []⟩ = false ∧
      ChooseDefenseDefault [{ DefenseName := "Block" }] ⟨true, false, []⟩
        ⟨true, true, []⟩ .Defense ⟨100, 1⟩ (fun _ => 0) = none :=
  ⟨rfl,
    (invalid_actor_floor_never_selected [{ DefenseName := "Block" }]
        ⟨true, false, []⟩ ⟨true, true, []⟩ .Defense ⟨100, 1⟩ (fun _ => 0)
        (Or.inl rfl)).2.1⟩

/-- C8: `ChooseDefense` on an empty candidate list returns found = false, and
on a list where every candidate fails the eligibility check it also returns
found = false; the `none` result models the untouched out-parameter. -/
theorem chooseDefense_empty_or_all_ineligible
    (entries : List FMCS_DefenseEntry)
    (can : FMCS_DefenseEntry → ActorRef → ActorRef → Bool)
    (score :
      Nat → FMCS_DefenseEntry → ActorRef → ActorRef → EMCS_DefenseIntent → MCSFloat)
    (Defender Attacker : ActorRef) (Intent : EMCS_DefenseIntent)
    (hall : ∀ e ∈ entries, can e Defender Attacker = false) :
    ChooseDefense [] can score Defender Attacker Intent = none ∧
    ChooseDefense entries can score Defender Attacker Intent = none := by
  constructor
  · unfold ChooseDefense
    simp
  · unfold ChooseDefense
    by_cases hcond : (!Defender.notNull || entries.isEmpty) = true
    · rw [if_pos hcond]
    · rw [if_neg hcond]
      exact chooseBestLoop_none_eligible (fun e => can e Defender Attacker)
        (fun k e => score k e Defender Attacker Intent) entries 0 .negFltMax none hall

/-- Witness for C8: a one-entry store whose only candidate fails the
eligibility check. -/
theorem chooseDefense_empty_or_all_ineligible_witness :
    (∀ e ∈ ([{ DefenseName := "Roll" }] : List FMCS_DefenseEntry),
        (fun _ _ _ => false : FMCS_DefenseEntry → ActorRef → ActorRef → Bool) e
          ⟨true, true, []⟩ ⟨true, true, []⟩ = false) ∧
      ChooseDefense [] (fun _ _ _ => false)
        (fun _ _ _ _ _ => MCSFloat.val 0) ⟨true, true, []⟩ ⟨true, true, []⟩
        .Defense = none ∧
      ChooseDefense [{ DefenseName := "Roll" }] (fun _ _ _ => false)
        (fun _ _ _ _ _ => MCSFloat.val 0) ⟨true, true, []⟩ ⟨true, true, []⟩
        .Defense = none :=
  ⟨fun e _ => rfl,
    (chooseDefense_empty_or_all_ineligible [{ DefenseName := "Roll" }]
        (fun _ _ _ => false) (fun _ _ _ _ _ => MCSFloat.val 0)
        ⟨true, true, []⟩ ⟨true, true, []⟩ .Defense (fun e _ => rfl)).1,
    (chooseDefense_empty_or_all_ineligible [{ DefenseName := "Roll" }]
        (fun _ _ _ => false) (fun _ _ _ _ _ => MCSFloat.val 0)
        ⟨true, true, []⟩ ⟨true, true, []⟩ .Defense (fun e _ => rfl)).2⟩

/-! The attack side: combo gate and combo continuation
(MCS_CombatCoreComponent.cpp). -/

/-- Modelled from the spec: enum `EMCS_AttackType` (its header is not among
the sources); the spec's end-to-end scenario uses the Light and Heavy attack
intents. -/
inductive EMCS_AttackType
  | Light
  | Heavy
deriving DecidableEq

/-- Modelled from the spec: struct `FMCS_AttackEntry` (its header is not among
the sources).  Fields follow the spec's ActionCandidate data model restricted
to what the combat core component reads: the identity name, the attack-type
tag used by `SelectAttack`'s type filter, the ordered follow-up name list that
drives the combo gate, and whether the entry's playable reference is valid
(`HasValidMontage()`); playback-only fields (blend times, montage section,
damage metadata) have no effect on the modelled state. -/
structure FMCS_AttackEntry where
  AttackName : String := ""
  AttackType : EMCS_AttackType := .Light
  AllowedNextAttacks : List String := []
  hasValidMontage : Bool := true
deriving DecidableEq

/-- Struct `FMCS_AttackSetData` (MCS_AttackSetData.h): a data table (modelled
as its ordered rows) plus an attack-chooser class
(`hasChooserClass` models `AttackChooser != nullptr`). -/
structure FMCS_AttackSetData where
  tableRows : List FMCS_AttackEntry := []
  hasChooserClass : Bool := true
deriving DecidableEq

/-- Modelled from the spec: `UMCS_AttackChooser::ChooseAttack` (its source is
not among the sources; only callers and the spec describe it).  Per spec §4.3
the Selector runs the same skip-ineligible / score / strict-argmax loop as the
defense chooser, over the chooser's AttackEntries list; `can` and `score` are
its virtual eligibility and scoring hooks with the actor, target and
situation context already applied, and the `Nat` is the RNG-stream position
of the scoring call. -/
def ChooseAttack (AttackEntries : List FMCS_AttackEntry)
    (can : FMCS_AttackEntry → Bool) (score : Nat → FMCS_AttackEntry → MCSFloat) :
    Option FMCS_AttackEntry :=
  if AttackEntries.isEmpty then none
  else chooseBestLoop can score AttackEntries 0 .negFltMax none

/-- The state of `UMCS_CombatCoreComponent` touched by attack selection and
the combo gate.  `chooserEntries` is `ActiveAttackChooser->AttackEntries` (we
model the common case in which the runtime chooser instance created by
`SetActiveAttackSet` is valid, so `SelectAttack` and `TryContinueCombo` reuse
that one pooled instance); `activeSet` is `AttackSets.Find(ActiveAttackSetTag)`;
`ownerValid` models `GetOwnerActor() != nullptr`. -/
structure CoreState where
  activeSet : Option FMCS_AttackSetData := none
  chooserEntries : List FMCS_AttackEntry := []
  CurrentAttack : FMCS_AttackEntry := {}
  bIsComboWindowOpen : Bool := false
  bCanContinueCombo : Bool := false
  AllowedComboNames : List String := []
  ownerValid : Bool := true
deriving DecidableEq

/-- `UMCS_CombatCoreComponent::SelectAttack` (MCS_CombatCoreComponent.cpp
lines 183-274): requires an active set with a chooser class and a valid
owner; filters the data table rows by the desired type; refreshes the active
chooser's entry list with the filtered rows; runs the chooser; on success
stores the chosen entry in `CurrentAttack`.  Returns the new state and the
success flag. -/
def SelectAttack (s : CoreState) (DesiredType : EMCS_AttackType)
    (can : FMCS_AttackEntry → Bool) (score : Nat → FMCS_AttackEntry → MCSFloat) :
    CoreState × Bool :=
  match s.activeSet with
  | none => (s, false)
  | some ActiveSet =>
    if !ActiveSet.hasChooserClass then (s, false)
    else if !s.ownerValid then (s, false)
    else
      let FilteredEntries :=
        ActiveSet.tableRows.filter (fun Row => Row.AttackType == DesiredType)
      if FilteredEntries.isEmpty then (s, false)
      else
        let s1 := { s with chooserEntries := FilteredEntries }
        match ChooseAttack FilteredEntries can score with
        | some ChosenAttack => ({ s1 with CurrentAttack := ChosenAttack }, true)
        | none => (s1, false)

/-- `UMCS_CombatCoreComponent::PerformAttack` (MCS_CombatCoreComponent.cpp
lines 101-176): runs `SelectAttack` and, when it succeeds, binds the montage
notifies, plays the montage and broadcasts attack-started — all external
effects; the combat-core state changes are exactly those made by
`SelectAttack`. -/
def PerformAttack (s : CoreState) (DesiredType : EMCS_AttackType)
    (can : FMCS_AttackEntry → Bool) (score : Nat → FMCS_AttackEntry → MCSFloat) :
    CoreState :=
  (SelectAttack s DesiredType can score).1

/-- `UMCS_CombatCoreComponent::TryContinueCombo` (MCS_CombatCoreComponent.cpp
lines 281-343).  `canR`/`scoreR` are the chooser hooks consumed by the
restricted selection; `canP`/`scoreP` those consumed by the re-entrant
`PerformAttack` → `SelectAttack` call (each selection draws fresh RNG). -/
def TryContinueCombo (s : CoreState) (DesiredType : EMCS_AttackType)
    (canR : FMCS_AttackEntry → Bool) (scoreR : Nat → FMCS_AttackEntry → MCSFloat)
    (canP : FMCS_AttackEntry → Bool) (scoreP : Nat → FMCS_AttackEntry → MCSFloat) :
    CoreState × Bool :=
  if !s.bIsComboWindowOpen then (s, false)
  else if s.AllowedComboNames.isEmpty then (s, false)
  else
    match s.activeSet with
    | none => (s, false)
    | some ActiveSet =>
      if !ActiveSet.hasChooserClass then (s, false)
      else if !s.ownerValid then (s, false)
      else
        let Filtered :=
          s.chooserEntries.filter (fun e => s.AllowedComboNames.contains e.AttackName)
        if Filtered.isEmpty then (s, false)
        else
          let Original := s.chooserEntries
          let s1 := { s with chooserEntries := Filtered }
          match ChooseAttack Filtered canR scoreR with
          | none => ({ s1 with chooserEntries := Original }, false)
          | some NextAttack =>
            let s2 := { s1 with chooserEntries := Original,
                                CurrentAttack := NextAttack }
            let s3 := PerformAttack s2 DesiredType canP scoreP
            ({ s3 with bCanContinueCombo := false,
                       bIsComboWindowOpen := false,
                       AllowedComboNames := [] }, true)

/-- The `ComboWindow` case of `UMCS_CombatCoreComponent::HandleMCSNotifyBegin`
(MCS_CombatCoreComponent.cpp lines 527-538), with the notify/owner validity
and montage-staleness guards passed (a failed guard leaves the state
unchanged): open the window, load the allowed names from the current attack's
follow-up list, and mark whether continuation is possible. -/
def HandleComboWindowBegin (s : CoreState) : CoreState :=
  { s with bIsComboWindowOpen := true,
           AllowedComboNames := s.CurrentAttack.AllowedNextAttacks,
           bCanContinueCombo := !s.CurrentAttack.AllowedNextAttacks.isEmpty }

/-- The `ComboWindow` case of `UMCS_CombatCoreComponent::HandleMCSNotifyEnd`
(MCS_CombatCoreComponent.cpp lines 593-604), with the guards passed: close
the window, then reset the allowed names only when `bCanContinueCombo` is
false. -/
def HandleComboWindowEnd (s : CoreState) : CoreState :=
  let s1 := { s with bIsComboWindowOpen := false }
  if !s1.bCanContinueCombo then { s1 with AllowedComboNames := [] } else s1

/-- Current attack of the C3 scenario; its follow-up list is the non-empty
["A"]. -/
def c3Attack : FMCS_AttackEntry :=
  { AttackName := "Jab", AllowedNextAttacks := ["A"] }

/-- Combat-core state right before the ComboWindow-begin event of the C3
scenario. -/
def c3Start : CoreState := { CurrentAttack := c3Attack }

/-- C3 (code evaluated at the failing input): after ComboWindow-begin with
the non-empty follow-up list ["A"] and then ComboWindow-end with no
TryContinueCombo call in between, the gate is Closed but the allowed-names
set still holds ["A"]: the end handler clears it only when bCanContinueCombo
is false, and that flag is still true from the begin handler.  This refutes
the claimed clearing and the claimed invariant that a closed gate has an
empty allowed-names set. -/
theorem comboWindowEnd_keeps_allowedNames :
    (HandleComboWindowEnd (HandleComboWindowBegin c3Start)).bIsComboWindowOpen
        = false ∧
      (HandleComboWindowEnd (HandleComboWindowBegin c3Start)).AllowedComboNames
        = ["A"] ∧
      (HandleComboWindowEnd (HandleComboWindowBegin c3Start)).AllowedComboNames
        ≠ [] := by
  decide

/-- Light attack "A" of the C5 scenario; it is the only allowed follow-up. -/
def c5A : FMCS_AttackEntry := { AttackName := "A", AllowedNextAttacks := ["A"] }

/-- Light attack "B" of the C5 scenario; not in the allowed-names set. -/
def c5B : FMCS_AttackEntry := { AttackName := "B" }

/-- Combat-core state of the C5 scenario: combo window open, allowed names
["A"], both attacks in the active table and in the chooser. -/
def c5Start : CoreState :=
  { activeSet := some { tableRows := [c5A, c5B] },
    chooserEntries := [c5A, c5B],
    CurrentAttack := c5A,
    bIsComboWindowOpen := true,
    bCanContinueCombo := true,
    AllowedComboNames := ["A"] }

/-- Scoring consumed by the re-entrant PerformAttack selection of the C5
scenario: it favours "B" (e.g. the jitter draw of that call). -/
def c5ScoreP : Nat → FMCS_AttackEntry → MCSFloat :=
  fun _ e => .val (if e.AttackName = "B" then 10 else 0)

/-- C5 (code evaluated at the failing input): TryContinueCombo succeeds and
its restricted selection picks "A" (the only allowed name), but the
re-entrant PerformAttack → SelectAttack call then re-runs selection over the
full type-filtered store and overwrites CurrentAttack with "B", which is not
in the allowed-names set — refuting the claim that the current action after
a successful call is a member of the allowed-names set. -/
theorem tryContinueCombo_overwrites_restricted_choice :
    (TryContinueCombo c5Start .Light (fun _ => true) (fun _ _ => .val 0)
        (fun _ => true) c5ScoreP).2 = true ∧
      (TryContinueCombo c5Start .Light (fun _ => true) (fun _ _ => .val 0)
          (fun _ => true) c5ScoreP).1.CurrentAttack.AttackName = "B" ∧
      c5Start.AllowedComboNames.contains "B" = false := by
  decide

/-- Light attack "A" of the C6 scenario. -/
def c6A : FMCS_AttackEntry := { AttackName := "A", AllowedNextAttacks := ["A"] }

/-- Light attack "B" of the C6 scenario. -/
def c6B : FMCS_AttackEntry := { AttackName := "B" }

/-- Heavy attack "C" of the C6 scenario; dropped by the Light type filter of
the re-entrant selection. -/
def c6C : FMCS_AttackEntry := { AttackName := "C", AttackType := .Heavy }

/-- Combat-core state of the C6 scenario: the chooser holds all three table
rows, the combo window is open with allowed names ["A"]. -/
def c6Start : CoreState :=
  { activeSet := some { tableRows := [c6A, c6B, c6C] },
    chooserEntries := [c6A, c6B, c6C],
    CurrentAttack := c6A,
    bIsComboWindowOpen := true,
    bCanContinueCombo := true,
    AllowedComboNames := ["A"] }

/-- C6 (code evaluated at the failing input): a successful TryContinueCombo
call leaves the active chooser's attack-entry list changed — the restricted
selection itself restores the saved list, but the re-entrant PerformAttack →
SelectAttack refreshes it to the table rows filtered by the desired type
([A, B] instead of the original [A, B, C]) — refuting the claim that the
list after every call equals the list before. -/
theorem tryContinueCombo_mutates_chooser_entries :
    (TryContinueCombo c6Start .Light (fun _ => true) (fun _ _ => .val 0)
        (fun _ => true) (fun _ _ => .val 0)).2 = true ∧
      (TryContinueCombo c6Start .Light (fun _ => true) (fun _ _ => .val 0)
          (fun _ => true) (fun _ _ => .val 0)).1.chooserEntries = [c6A, c6B] ∧
      (TryContinueCombo c6Start .Light (fun _ => true) (fun _ _ => .val 0)
          (fun _ => true) (fun _ _ => .val 0)).1.chooserEntries
        ≠ c6Start.chooserEntries := by
  decide

/-! The defense component: parry attempts (MCS_CombatDefenseComponent.cpp). -/

/-- Events broadcast by `TryParry`: the component's local `OnParryFail` and
`OnParrySuccess` delegates, and the event bus's global
`OnParrySuccess(defender, attacker)` (the bus is available —
`UMCS_CombatEventBus::Get` lazily creates it for a live world). -/
inductive ParryEvent
  | localFail
  | localSuccess
  | globalSuccess (defender attacker : ActorRef)
deriving DecidableEq

/-- The state of `UMCS_CombatDefenseComponent` touched by `TryParry`:
the parry/defense window flags maintained by the window-lifecycle handlers
and the attacker recorded when the parry window opened. -/
structure DefenseCompState where
  bIsInParryWindow : Bool := false
  bIsInDefenseWindow : Bool := false
  LastParrySource : ActorRef := ⟨false, false, []⟩
deriving DecidableEq

/-- `UMCS_CombatDefenseComponent::TryParry` (MCS_CombatDefenseComponent.cpp
lines 152-188).  `owner` is `GetOwner()`; `facingDot` is the engine dot
product of the owner's forward vector with the safe-normalized vector to
`LastParrySource` (external geometry).  Returns the result, the broadcast
events in order, and the post state. -/
def TryParry (s : DefenseCompState) (owner : ActorRef) (facingDot : ℚ) :
    Bool × List ParryEvent × DefenseCompState :=
  if !s.bIsInParryWindow || !IsValidActor s.LastParrySource then
    (false, [.localFail], s)
  else
    let FacingDot := fclamp facingDot (-1) 1
    if FacingDot > 1/4 then
      (true, [.localSuccess, .globalSuccess owner s.LastParrySource], s)
    else
      (false, [.localFail], s)

/-- Evaluation of `TryParry` when the guard fails (window closed or recorded
attacker invalid). -/
lemma tryParry_eval_closed (s : DefenseCompState) (owner : ActorRef) (dot : ℚ)
    (h : (!s.bIsInParryWindow || !IsValidActor s.LastParrySource) = true) :
    TryParry s owner dot = (false, [.localFail], s) := by
  unfold TryParry
  rw [if_pos h]

/-- Evaluation of `TryParry` when the guard passes: the result is decided by
the clamped facing dot. -/
lemma tryParry_eval_open (s : DefenseCompState) (owner : ActorRef) (dot : ℚ)
    (hw : s.bIsInParryWindow = true) (hv : IsValidActor s.LastParrySource = true) :
    TryParry s owner dot =
      if fclamp dot (-1) 1 > 1/4
      then (true, [.localSuccess, .globalSuccess owner s.LastParrySource], s)
      else (false, [.localFail], s) := by
  have h' : ¬((!s.bIsInParryWindow || !IsValidActor s.LastParrySource) = true) := by
    rw [hw, hv]
    simp
  unfold TryParry
  rw [if_neg h']

/-- C9: TryParry returns false when no parry window is open or the recorded
attacker is invalid; otherwise it returns true exactly when the facing dot
exceeds 0.25; a true return broadcasts the global parry-success event
carrying (defender, attacker) exactly once; a facing failure broadcasts the
local failure event; and the call never changes the component state — in
particular it never closes the parry window. -/
theorem tryParry_facing_gate (s : DefenseCompState) (owner : ActorRef)
    (dot : ℚ) :
    ((s.bIsInParryWindow = false ∨ IsValidActor s.LastParrySource = false) →
        (TryParry s owner dot).1 = false) ∧
    (s.bIsInParryWindow = true → IsValidActor s.LastParrySource = true →
        ((TryParry s owner dot).1 = true ↔ 1/4 < dot)) ∧
    ((TryParry s owner dot).1 = true →
        (TryParry s owner dot).2.1.count
          (.globalSuccess owner s.LastParrySource) = 1) ∧
    (s.bIsInParryWindow = true → IsValidActor s.LastParrySource = true →
        dot ≤ 1/4 → (TryParry s owner dot).2.1 = [.localFail]) ∧
    (TryParry s owner dot).2.2 = s := by
  have hclamp : (fclamp dot (-1) 1 > 1/4) ↔ (1/4 < dot) := by
    unfold fclamp
    split_ifs with h1 h2
    · constructor
      · intro h; norm_num at h
      · intro h; linarith
    · exact Iff.rfl
    · constructor
      · intro _; linarith
      · intro _; norm_num
  by_cases hw : s.bIsInParryWindow = true
  · by_cases hv : IsValidActor s.LastParrySource = true
    · have heval := tryParry_eval_open s owner dot hw hv
      by_cases hdot : fclamp dot (-1) 1 > 1/4
      · rw [if_pos hdot] at heval
        rw [heval]
        refine ⟨?_, fun _ _ => ?_, fun _ => ?_, fun _ _ hle => ?_, rfl⟩
        · intro hcase
          rcases hcase with h | h
          · rw [h] at hw
            exact absurd hw (by simp)
          · rw [h] at hv
            exact absurd hv (by simp)
        · exact iff_of_true rfl (hclamp.mp hdot)
        · simp [List.count_cons]
        · exact absurd (hclamp.mp hdot) (not_lt.mpr hle)
      · rw [if_neg hdot] at heval
        rw [heval]
        refine ⟨fun _ => rfl, fun _ _ => ?_, fun hres => ?_, fun _ _ _ => rfl, rfl⟩
        · exact iff_of_false (by simp) (fun hlt => hdot (hclamp.mpr hlt))
        · exact absurd hres (by simp)
    · have heval := tryParry_eval_closed s owner dot
        (by rw [Bool.not_eq_true] at hv; rw [hv]; simp)
      rw [heval]
      exact ⟨fun _ => rfl, fun _ hv2 => absurd hv2 hv,
        fun hres => absurd hres (by simp), fun _ hv2 _ => absurd hv2 hv, rfl⟩
  · have heval := tryParry_eval_closed s owner dot
      (by rw [Bool.not_eq_true] at hw; rw [hw]; simp)
    rw [heval]
    exact ⟨fun _ => rfl, fun hw2 _ => absurd hw2 hw,
      fun hres => absurd hres (by simp), fun hw2 _ _ => absurd hw2 hw, rfl⟩

/-- Witness for C9: open parry window, valid recorded attacker, defender
facing the attacker head-on (dot 1): TryParry returns true, broadcasts the
global success exactly once, and leaves the state unchanged. -/
theorem tryParry_facing_gate_witness :
    DefenseCompState.bIsInParryWindow
        ⟨true, false, ⟨true, true, []⟩⟩ = true ∧
      IsValidActor (DefenseCompState.LastParrySource
        ⟨true, false, ⟨true, true, []⟩⟩) = true ∧
      (TryParry ⟨true, false, ⟨true, true, []⟩⟩ ⟨true, true, []⟩ 1).1 = true ∧
      (TryParry ⟨true, false, ⟨true, true, []⟩⟩ ⟨true, true, []⟩ 1).2.1.count
        (.globalSuccess ⟨true, true, []⟩ ⟨true, true, []⟩) = 1 ∧
      (TryParry ⟨true, false, ⟨true, true, []⟩⟩ ⟨true, true, []⟩ 1).2.2 =
        ⟨true, false, ⟨true, true, []⟩⟩ :=
  ⟨rfl, rfl,
    ((tryParry_facing_gate ⟨true, false, ⟨true, true, []⟩⟩
        ⟨true, true, []⟩ 1).2.1 rfl rfl).mpr (by norm_num),
    (tryParry_facing_gate ⟨true, false, ⟨true, true, []⟩⟩
        ⟨true, true, []⟩ 1).2.2.1
      (((tryParry_facing_gate ⟨true, false, ⟨true, true, []⟩⟩
          ⟨true, true, []⟩ 1).2.1 rfl rfl).mpr (by norm_num)),
    (tryParry_facing_gate ⟨true, false, ⟨true, true, []⟩⟩
        ⟨true, true, []⟩ 1).2.2.2.2⟩

/-- C10: every TryParry call that returns false broadcasts the local
parry-failure event exactly once — including the no-open-window and
invalid-attacker cases — and broadcasts no parry-success event, local or
global. -/
theorem tryParry_false_single_fail_event (s : DefenseCompState)
    (owner : ActorRef) (dot : ℚ)
    (h : (TryParry s owner dot).1 = false) :
    (TryParry s owner dot).2.1 = [.localFail] ∧
    (TryParry s owner dot).2.1.count .localFail = 1 ∧
    ParryEvent.localSuccess ∉ (TryParry s owner dot).2.1 ∧
    (∀ d a : ActorRef, ParryEvent.globalSuccess d a ∉ (TryParry s owner dot).2.1) := by
  have hevs : (TryParry s owner dot).2.1 = [.localFail] := by
    unfold TryParry at h ⊢
    by_cases hguard : (!s.bIsInParryWindow || !IsValidActor s.LastParrySource) = true
    · rw [if_pos hguard]
    · rw [if_neg hguard] at h ⊢
      by_cases hdot : fclamp dot (-1) 1 > 1/4
      · rw [if_pos hdot] at h
        exact absurd h (by simp)
      · rw [if_neg hdot]
  refine ⟨hevs, ?_, ?_, ?_⟩
  · rw [hevs]
    simp [List.count_cons, List.count_nil]
  · rw [hevs]
    intro hmem
    exact ParryEvent.noConfusion (List.mem_singleton.mp hmem)
  · intro d a
    rw [hevs]
    intro hmem
    exact ParryEvent.noConfusion (List.mem_singleton.mp hmem)

/-- Witness for C10: no parry window open; TryParry returns false and
broadcasts exactly the local failure event. -/
theorem tryParry_false_single_fail_event_witness :
    (TryParry ⟨false, false, ⟨true, true, []⟩⟩ ⟨true, true, []⟩ 1).1 = false ∧
      (TryParry ⟨false, false, ⟨true, true, []⟩⟩ ⟨true, true, []⟩ 1).2.1 =
        [.localFail] :=
  ⟨rfl,
    (tryParry_false_single_fail_event ⟨false, false, ⟨true, true, []⟩⟩
        ⟨true, true, []⟩ 1 rfl).1⟩

end MCS
